import Mathlib

set_option maxRecDepth 40000

/-!
Shallow embedding of the pure label-generation logic of the `printlabel`
application (files `app/utils/validation.py`, `app/labels/sizes.py`,
`app/labels/epl.py`, `app/labels/zpl.py`, `app/utils/preview.py`).

Python strings are modelled as `List Char` (`PyStr`), Python `bytes` as
`List Nat` (each entry one byte value), Python `int` as `Int`, and
fallible results as `Option`.
-/

namespace PrintLabel

/-- Python strings are modelled as lists of characters. -/
abbrev PyStr := List Char

/-- Python slice `l[:k]`, where a negative `k` counts from the end of the
list (`l[:k] = l[:len(l)+k]`, clipped at `0`). -/
def pySliceTo {α : Type} (l : List α) (k : Int) : List α :=
  l.take (if k < 0 then ((l.length : Int) + k).toNat else k.toNat)

/-- Python slice `l[0::2]`: every other element starting at index 0. -/
def everyOther {α : Type} : List α → List α
  | [] => []
  | [a] => [a]
  | a :: _ :: rest => a :: everyOther rest

/-- Numeric value of an ASCII digit character (Python `int(c)` for a digit). -/
def digitVal (c : Char) : Nat := c.toNat - 48

/-- Model of `compute_upc_check_digit` from `app/utils/validation.py`:
`digits = [int(c) for c in upc11]`, `odd_sum = sum(digits[0::2])`,
`even_sum = sum(digits[1::2])`, `total = odd_sum * 3 + even_sum`,
`check = (10 - (total % 10)) % 10`, returned as the one-character
string `str(check)`. -/
def compute_upc_check_digit (upc11 : PyStr) : PyStr :=
  let digits := upc11.map digitVal
  let odd_sum := (everyOther digits).sum
  let even_sum := (everyOther digits.tail).sum
  let total := odd_sum * 3 + even_sum
  let check := (10 - total % 10) % 10
  [Nat.digitChar check]

/-- The local `clean = "".join([c for c in upc if c.isdigit()])` of
`ensure_upc12`, restricted to ASCII digits: exact for ASCII input strings
(Python's `isdigit` also accepts non-ASCII Unicode digits; `upcCleanPy`
below models that). -/
def upcClean (upc : PyStr) : PyStr := upc.filter fun c => c.isDigit

/-- Model of `ensure_upc12` from `app/utils/validation.py`.  The Python `upc is None`
guard lies outside the string domain; on strings the function first keeps
the digit characters (`upcClean`), then branches on the remaining length.
In the 12-digit branch, `payload = clean[:11]`, `expected =
compute_upc_check_digit(payload)`, and `clean[-1] == expected` compares the
last character, as a one-character string, with the recomputed check digit;
since `clean` has length 12 there, that one-character string is
`clean.drop 11`.  This version uses the ASCII-restricted `upcClean` and is
exact for ASCII input strings only; `ensure_upc12E` below models the full
`isdigit`/`int` behavior including the exception path. -/
def ensure_upc12 (upc : PyStr) : Option PyStr :=
  if (upcClean upc).length = 11 then
    some (upcClean upc ++ compute_upc_check_digit (upcClean upc))
  else if (upcClean upc).length = 12 then
    if (upcClean upc).drop 11 = compute_upc_check_digit ((upcClean upc).take 11) then
      some (upcClean upc)
    else none
  else none

/-- Sum of the digit values at odd 1-indexed positions of `s`
(the specification's reading of the UPC-A weighting). -/
def oddPosSum (s : PyStr) : Nat :=
  ∑ i in Finset.range s.length, if (i + 1) % 2 = 1 then digitVal (s.getD i '0') else 0

/-- Sum of the digit values at even 1-indexed positions of `s`. -/
def evenPosSum (s : PyStr) : Nat :=
  ∑ i in Finset.range s.length, if (i + 1) % 2 = 0 then digitVal (s.getD i '0') else 0

namespace Epl

/-- Model of `truncate_text` from `app/labels/epl.py`.  The `text is None` guard lies
outside the string domain.  NOTE: the literal appended by the source file is
the three-character sequence `â€¦` (the UTF-8 bytes of U+2026 HORIZONTAL
ELLIPSIS decoded as Windows-1252, as committed in the repository), not a
single ellipsis character. -/
def truncate_text (text : PyStr) (max_chars : Int) : PyStr :=
  if (text.length : Int) ≤ max_chars then text
  else pySliceTo text (max_chars - 1) ++ ['â', '€', '¦']

end Epl

namespace Zpl

/-- Model of `truncate_text` from `app/labels/zpl.py`: same code as the EPL variant
but appending the genuine single character U+2026. -/
def truncate_text (text : PyStr) (max_chars : Int) : PyStr :=
  if (text.length : Int) ≤ max_chars then text
  else pySliceTo text (max_chars - 1) ++ ['…']

end Zpl

/-- Helper for `pyWords`: walks the string keeping the (reversed) current
run of non-whitespace characters in `acc`. -/
def pyWordsAux : PyStr → PyStr → List PyStr
  | [], acc => if acc = [] then [] else [acc.reverse]
  | c :: rest, acc =>
    if c.isWhitespace then
      (if acc = [] then [] else [acc.reverse]) ++ pyWordsAux rest []
    else pyWordsAux rest (c :: acc)

/-- Python `str.split()` with no arguments: the maximal runs of
non-whitespace characters of the string, in order. -/
def pyWords (s : PyStr) : List PyStr := pyWordsAux s []

/-- A word list entry produced by `pyWords`: nonempty and whitespace-free. -/
def goodWord (w : PyStr) : Prop := w ≠ [] ∧ ∀ c ∈ w, c.isWhitespace = false

/-- The word content of a list of lines. -/
def lineWords (ls : List PyStr) : List PyStr := (ls.map pyWords).flatten

/-- "Space-joined concatenation" of a list of lines. -/
def joinSpace : List PyStr → PyStr
  | [] => []
  | [l] => l
  | l :: snd :: rest => l ++ ' ' :: joinSpace (snd :: rest)

/-- One iteration of the `for word in words` loop of `wrap_text`
(`app/labels/epl.py` lines 32-38, identical in `app/utils/preview.py`):
the state is `(lines, current_line)`; Python tests
`len(current_line + " " + word) <= max_chars`, extends `current_line`
(with a joining space unless it was empty), and otherwise flushes a
nonempty `current_line` and starts over from `word`. -/
def wrapStep (max_chars : Int) (st : List PyStr × PyStr) (word : PyStr) :
    List PyStr × PyStr :=
  if ((st.2 ++ ' ' :: word).length : Int) ≤ max_chars then
    (st.1, if st.2 = [] then word else st.2 ++ ' ' :: word)
  else
    ((if st.2 = [] then st.1 else st.1 ++ [st.2]), word)

/-- Model of `wrap_text` from `app/labels/epl.py`: empty text gives `[""]`, text
within the limit is returned as a single line, otherwise the words are
accumulated greedily (`wrapStep`), a trailing nonempty `current_line` is
flushed, and the result is cut to `lines[:max_lines]`. -/
def wrap_text (text : PyStr) (max_chars : Int) (max_lines : Int) : List PyStr :=
  if text = [] then [[]]
  else if (text.length : Int) ≤ max_chars then [text]
  else
    let st := (pyWords text).foldl (wrapStep max_chars) ([], [])
    pySliceTo (if st.2 = [] then st.1 else st.1 ++ [st.2]) max_lines

/-- Model of `wrap_text` from `app/utils/preview.py`: the same code with the final
cut fixed at `lines[:2]` instead of a `max_lines` parameter. -/
def preview_wrap_text (text : PyStr) (max_chars : Int) : List PyStr :=
  wrap_text text max_chars 2

/-- A line the amended C4 allows: within the limit, or a single word
(whitespace-free) that is itself longer than the limit. -/
def okLine (mc : Int) (l : PyStr) : Prop :=
  (l.length : Int) ≤ mc ∨ ∀ c ∈ l, c.isWhitespace = false

/-- Width/height entry of the label-size table (dots at 203 dpi). -/
structure LabelDims where
  width_dots : Int
  height_dots : Int
deriving DecidableEq

/-- The `LABEL_SIZES_DOTS` dict of `app/labels/sizes.py`, in source order:
`"2x1" ↦ 203*2 × 203*1` and `"4x6" ↦ 203*4 × 203*6`. -/
def LABEL_SIZES_DOTS : List (PyStr × LabelDims) :=
  [("2x1".toList, ⟨203 * 2, 203 * 1⟩), ("4x6".toList, ⟨203 * 4, 203 * 6⟩)]

/-- Model of `get_label_size_dots` from `app/labels/sizes.py`: exact dict lookup,
falling back to the `"4x6"` entry (`203*4 × 203*6` dots) on a miss. -/
def get_label_size_dots (size_key : PyStr) : LabelDims :=
  match LABEL_SIZES_DOTS.lookup size_key with
  | some d => d
  | none => ⟨203 * 4, 203 * 6⟩

/-- Python `str(i)` for an `int`. -/
def pyIntStr (i : Int) : PyStr :=
  if i < 0 then '-' :: Nat.toDigits 10 i.natAbs else Nat.toDigits 10 i.toNat

/-- Model of the `LabelSettings` dataclass of `app/utils/settings.py`
(field defaults as in the dataclass declaration; the `orientation` and
preview-font fields are not read by the builders and are omitted). -/
structure LabelSettings where
  title_font : Int := 4
  text_font : Int := 3
  title_xy_mul_x : Int := 1
  title_xy_mul_y : Int := 2
  x_margin : Int := 20
  title_y : Int := 6
  item_y : Int := 32
  case_y : Int := 52
  barcode_y : Int := 72
  line_spacing : Int := 24
  title_max_chars : Int := 24
  item_max_chars : Int := 36
  case_max_chars : Int := 36
  max_title_lines : Int := 2
  show_separator : Bool := true
  separator_width : Int := 200
  separator_thickness : Int := 2
  barcode_height : Int := 40
  barcode_narrow : Int := 3
  barcode_wide : Int := 6
  barcode_hri : PyStr := ['B']
deriving DecidableEq

/-- The inline per-size fallback parameters of `build_epl_label`
(`app/labels/epl.py` lines 84-129), used when `settings is None`. -/
def eplDefaults (size_key : PyStr) : LabelSettings :=
  if size_key = "2x1".toList then
    { title_font := 4, title_xy_mul_x := 1, title_xy_mul_y := 3, text_font := 3,
      barcode_narrow := 3, barcode_wide := 6, barcode_height := 40,
      title_y := 6, item_y := 32, case_y := 52, barcode_y := 72, x_margin := 20,
      barcode_hri := ['B'], line_spacing := 24, title_max_chars := 24,
      item_max_chars := 36, case_max_chars := 36, max_title_lines := 2,
      show_separator := true, separator_width := 200, separator_thickness := 2 }
  else
    { title_font := 4, title_xy_mul_x := 1, title_xy_mul_y := 4, text_font := 3,
      barcode_narrow := 3, barcode_wide := 6, barcode_height := 280,
      title_y := 40, item_y := 110, case_y := 160, barcode_y := 210, x_margin := 40,
      barcode_hri := ['B'], line_spacing := 24, title_max_chars := 24,
      item_max_chars := 36, case_max_chars := 36, max_title_lines := 2,
      show_separator := true, separator_width := 200, separator_thickness := 2 }

/-- Parameter resolution at the top of `build_epl_label`: a provided
`LabelSettings` is read field by field, otherwise the inline per-size
defaults apply.  (`text_xy_mul` is the constant `(1, 1)` on both paths and
is inlined at its use sites.) -/
def eplParams (size_key : PyStr) : Option LabelSettings → LabelSettings
  | some s => s
  | none => eplDefaults size_key

/-- Model of `_e` from `app/labels/epl.py`: append the EPL CRLF terminator. -/
def _e (line : PyStr) : PyStr := line ++ ['\r', '\n']

/-- The UPC normalization inside `build_epl_label` (lines 140-146): keep the
digit characters of `upc12`; 12 or more digits are cut to the first 12, 11
digits get the computed check digit appended, anything shorter is kept
as-is (and will fail the emission guard).  This version restricts Python's
`isdigit` to ASCII digits and is exact for ASCII `upc12` arguments only;
`epl_upc_payloadE` below models the full Unicode/`ValueError` behavior. -/
def epl_upc_payload (upc12 : PyStr) : PyStr :=
  let digits := upc12.filter fun ch => ch.isDigit
  if 12 ≤ digits.length then digits.take 12
  else if digits.length = 11 then digits ++ compute_upc_check_digit digits
  else digits

/-- Python truthiness condition `show_separator and title_lines and
title_lines[0]` guarding the separator and the extra cascade gap. -/
def eplSepCond (P : LabelSettings) (title_lines : List PyStr) : Bool :=
  P.show_separator && !title_lines.isEmpty && !(title_lines.headD []).isEmpty

/-- The repeated vertical-cascade adjustment of `build_epl_label`
(lines 164-166, 170-172, 177-179): shift a base y by
`(len(title_lines) - 1) * line_spacing`, plus one extra `line_spacing`
after the separator when it is shown. -/
def eplAdjustY (P : LabelSettings) (title_lines : List PyStr) (base_y : Int) : Int :=
  base_y + ((title_lines.length : Int) - 1) * P.line_spacing +
    (if eplSepCond P title_lines then P.line_spacing else 0)

/-- EPL `A` text command for one title line (epl.py line 156). -/
def eplTitleCmd (P : LabelSettings) (y_pos : Int) (title_line : PyStr) : PyStr :=
  _e ('A' :: (pyIntStr P.x_margin ++ ',' :: pyIntStr y_pos ++ ",0,".toList ++
    pyIntStr P.title_font ++ ',' :: pyIntStr P.title_xy_mul_x ++
    ',' :: pyIntStr P.title_xy_mul_y ++ ",N,\"".toList ++ title_line ++ ['"']))

/-- EPL `L` separator line command (epl.py line 161). -/
def eplSepCmd (P : LabelSettings) (separator_y : Int) : PyStr :=
  _e ('L' :: (pyIntStr P.x_margin ++ ',' :: pyIntStr separator_y ++
    ',' :: pyIntStr (P.x_margin + P.separator_width) ++ ',' :: pyIntStr separator_y ++
    ',' :: pyIntStr P.separator_thickness))

/-- EPL `A` text command for the item number (epl.py line 167);
`text_xy_mul` is `(1, 1)`. -/
def eplItemCmd (P : LabelSettings) (y : Int) (safe_item : PyStr) : PyStr :=
  _e ('A' :: (pyIntStr P.x_margin ++ ',' :: pyIntStr y ++ ",0,".toList ++
    pyIntStr P.text_font ++ ",1,1,N,\"".toList ++ safe_item ++ ['"']))

/-- EPL `A` text command for the casepack (epl.py line 173). -/
def eplCaseCmd (P : LabelSettings) (y : Int) (safe_case : PyStr) : PyStr :=
  _e ('A' :: (pyIntStr P.x_margin ++ ',' :: pyIntStr y ++ ",0,".toList ++
    pyIntStr P.text_font ++ ",1,1,N,\"CS/PK: ".toList ++ safe_case ++ ['"']))

/-- EPL `B` Code-128 barcode command (epl.py line 181). -/
def eplBarcodeCmd (P : LabelSettings) (y : Int) (payload : PyStr) : PyStr :=
  _e ('B' :: (pyIntStr P.x_margin ++ ',' :: pyIntStr y ++ ",0,1,".toList ++
    pyIntStr P.barcode_narrow ++ ',' :: pyIntStr P.barcode_wide ++
    ',' :: pyIntStr P.barcode_height ++ ',' :: P.barcode_hri ++
    ",\"".toList ++ payload ++ ['"']))

/-- Command-line sequence built by `build_epl_label`
(`app/labels/epl.py` lines 148-186), in source order: `N`, `q`, `Q`, one
`A` per wrapped title line, the optional `L` separator, the item `A`, the
optional casepack `A`, the barcode `B` when the payload has at least 11
digits, and the final `P` print command (`P1` when `copies <= 1`). -/
def build_epl_lines (size_key item_number upc12 title casepack : PyStr)
    (copies : Int) (settings : Option LabelSettings) : List PyStr :=
  let dims := get_label_size_dots size_key
  let P := eplParams size_key settings
  let safe_title := Epl.truncate_text title P.title_max_chars
  let safe_item := Epl.truncate_text item_number P.item_max_chars
  let safe_case := Epl.truncate_text casepack P.case_max_chars
  let title_lines := wrap_text safe_title P.title_max_chars P.max_title_lines
  let upc_payload := epl_upc_payload upc12
  [_e ['N'],
   _e ('q' :: pyIntStr dims.width_dots),
   _e ('Q' :: (pyIntStr dims.height_dots ++ ",24".toList))]
  ++ (title_lines.enum.map fun p =>
        eplTitleCmd P (P.title_y + (p.1 : Int) * P.line_spacing) p.2)
  ++ (if eplSepCond P title_lines then
        [eplSepCmd P (P.title_y + (title_lines.length : Int) * P.line_spacing +
          P.line_spacing)]
      else [])
  ++ [eplItemCmd P (eplAdjustY P title_lines P.item_y) safe_item]
  ++ (if safe_case ≠ [] then
        [eplCaseCmd P (eplAdjustY P title_lines P.case_y) safe_case]
      else [])
  ++ (if upc_payload ≠ [] ∧ 11 ≤ upc_payload.length then
        [eplBarcodeCmd P (eplAdjustY P title_lines P.barcode_y) upc_payload]
      else [])
  ++ [if 1 < copies then _e ('P' :: pyIntStr copies) else _e ['P', '1']]

/-- Python `str.encode("ascii", errors="ignore")`: characters ≥ 128 are
silently dropped; the rest map to their code points. -/
def encodeAsciiIgnore (s : PyStr) : List Nat :=
  (s.filter fun c => c.toNat < 128).map Char.toNat

/-- Model of `build_epl_label`: the joined command lines encoded as ASCII
with non-encodable characters ignored (epl.py lines 188-189). -/
def build_epl_label (size_key item_number upc12 title casepack : PyStr)
    (copies : Int) (settings : Option LabelSettings) : List Nat :=
  encodeAsciiIgnore
    (build_epl_lines size_key item_number upc12 title casepack copies settings).flatten

/-- Per-size typography block of `build_zpl_label`
(`app/labels/zpl.py` lines 33-48). -/
structure ZplParams where
  title_font_h : Int
  title_font_w : Int
  text_font_h : Int
  text_font_w : Int
  barcode_height : Int
  title_y : Int
  item_y : Int
  case_y : Int
  barcode_y : Int
deriving DecidableEq

/-- Typography selection of `build_zpl_label`: `"2x1"` or the 4x6 default. -/
def zplParams (size_key : PyStr) : ZplParams :=
  if size_key = "2x1".toList then ⟨30, 30, 24, 24, 80, 10, 50, 80, 110⟩
  else ⟨48, 48, 36, 36, 300, 40, 110, 160, 220⟩

/-- ZPL `^FO...^A0N...^FD...^FS` text element (zpl.py lines 62-66). -/
def zplTextCmd (y fh fw : Int) (data : PyStr) : PyStr :=
  '^' :: 'F' :: 'O' :: ("20,".toList ++ pyIntStr y ++ "^A0N,".toList ++
    pyIntStr fh ++ ',' :: pyIntStr fw ++ "^FD".toList ++ data ++ "^FS".toList)

/-- ZPL `^FO...^BUN...^FD...^FS` UPC-A barcode element (zpl.py line 70):
emitted unconditionally, carrying the raw `upc12` argument. -/
def zplBarcodeCmd (y h : Int) (data : PyStr) : PyStr :=
  '^' :: 'F' :: 'O' :: ("20,".toList ++ pyIntStr y ++ "^BUN,".toList ++
    pyIntStr h ++ ",Y,N^FD".toList ++ data ++ "^FS".toList)

/-- Element sequence built by `build_zpl_label`
(`app/labels/zpl.py` lines 54-75), in source order; the elements are
concatenated without separators. -/
def build_zpl_elems (size_key item_number upc12 title casepack : PyStr)
    (copies : Int) : List PyStr :=
  let dims := get_label_size_dots size_key
  let Z := zplParams size_key
  let safe_title := Zpl.truncate_text title 36
  let safe_item := Zpl.truncate_text item_number 36
  let safe_case := Zpl.truncate_text casepack 36
  ['^' :: 'X' :: ['A'],
   '^' :: 'P' :: 'W' :: pyIntStr dims.width_dots,
   '^' :: 'L' :: 'L' :: pyIntStr dims.height_dots,
   '^' :: 'L' :: 'H' :: "0,0".toList,
   '^' :: 'C' :: 'I' :: "28".toList,
   zplTextCmd Z.title_y Z.title_font_h Z.title_font_w safe_title,
   zplTextCmd Z.item_y Z.text_font_h Z.text_font_w ("Item: ".toList ++ safe_item),
   zplTextCmd Z.case_y Z.text_font_h Z.text_font_w ("Casepack: ".toList ++ safe_case),
   '^' :: 'B' :: 'Y' :: "2,2,10".toList,
   zplBarcodeCmd Z.barcode_y Z.barcode_height upc12]
  ++ (if 1 < copies then ['^' :: 'P' :: 'Q' :: pyIntStr copies] else [])
  ++ ['^' :: 'X' :: ['Z']]

/-- Test whether a command line starts with the directive letter `c`. -/
def headIs (c : Char) (l : PyStr) : Bool := l.head? == some c

/-- Test whether a ZPL element is the `^PQ` copy-count directive. -/
def startsWithPQ (l : PyStr) : Bool := ['^', 'P', 'Q'].isPrefixOf l

/-- UTF-8 encoding of one character (Python `str.encode("utf-8")`). -/
def utf8EncodeChar (c : Char) : List Nat :=
  let n := c.toNat
  if n < 128 then [n]
  else if n < 2048 then [192 + n / 64, 128 + n % 64]
  else if n < 65536 then [224 + n / 4096, 128 + n / 64 % 64, 128 + n % 64]
  else [240 + n / 262144, 128 + n / 4096 % 64, 128 + n / 64 % 64, 128 + n % 64]

/-- Python `str.encode("utf-8")` over a whole string. -/
def encodeUtf8 (s : PyStr) : List Nat := (s.map utf8EncodeChar).flatten

/-- Model of `build_zpl_label`: the joined elements encoded as UTF-8
(zpl.py lines 77-78). -/
def build_zpl_label (size_key item_number upc12 title casepack : PyStr)
    (copies : Int) : List Nat :=
  encodeUtf8 (build_zpl_elems size_key item_number upc12 title casepack copies).flatten

/-- Python `str.isdigit()` for one character.  CPython accepts every
character with the Unicode digit property, which is strictly larger than
the ASCII digits: it includes, e.g., the superscripts ¹ ² ³ (U+00B9,
U+00B2, U+00B3) and the Arabic-Indic decimal digits ٠-٩ (U+0660-U+0669).
This model covers ASCII plus those two blocks — the character repertoire
this development evaluates — and agrees with CPython exactly on every
character below U+0080 and on the listed blocks. -/
def pyIsDigit (c : Char) : Bool :=
  if c.isDigit then true
  else if c.toNat = 0xB9 ∨ c.toNat = 0xB2 ∨ c.toNat = 0xB3 then true
  else if 0x660 ≤ c.toNat ∧ c.toNat ≤ 0x669 then true
  else false

/-- Python `int(c)` for one character: Unicode *decimal* digits (category
Nd: ASCII and, e.g., Arabic-Indic) convert to their value, while characters
that are digits but not decimal (such as the superscript `²`) raise
`ValueError`, modelled as `none`.  Same character coverage as
`pyIsDigit`. -/
def pyIntVal (c : Char) : Option Nat :=
  if c.isDigit then some (c.toNat - 48)
  else if 0x660 ≤ c.toNat ∧ c.toNat ≤ 0x669 then some (c.toNat - 0x660)
  else none

/-- The list comprehension `[int(c) for c in upc11]` of
`compute_upc_check_digit` with its exception propagated: `none` models a
`ValueError` escaping from `int`. -/
def mapIntVals : PyStr → Option (List Nat)
  | [] => some []
  | c :: rest =>
    match pyIntVal c, mapIntVals rest with
    | some v, some vs => some (v :: vs)
    | _, _ => none

/-- Model of `compute_upc_check_digit` from `app/utils/validation.py`
including the error path of `int(c)`: `none` models the `ValueError`
raised on a digit character that is not a decimal digit.  On ASCII-digit
inputs this agrees with `compute_upc_check_digit`
(`compute_upc_check_digitE_digits`). -/
def compute_upc_check_digitE (upc11 : PyStr) : Option PyStr :=
  match mapIntVals upc11 with
  | none => none
  | some digits =>
    let odd_sum := (everyOther digits).sum
    let even_sum := (everyOther digits.tail).sum
    let total := odd_sum * 3 + even_sum
    let check := (10 - total % 10) % 10
    some [Nat.digitChar check]

/-- The UPC normalization of `build_epl_label` (epl.py lines 140-146) under
Python's Unicode `isdigit` with the `ValueError` path of the check-digit
computation: `Except.error ()` models the exception aborting the builder.
`epl_upc_payload` (ASCII model) agrees with this on ASCII `upc12`
arguments (`epl_barcode_payload_amended`). -/
def epl_upc_payloadE (upc12 : PyStr) : Except Unit PyStr :=
  let digits := upc12.filter pyIsDigit
  if 12 ≤ digits.length then Except.ok (digits.take 12)
  else if digits.length = 11 then
    match compute_upc_check_digitE digits with
    | none => Except.error ()
    | some ck => Except.ok (digits ++ ck)
  else Except.ok digits

lemma everyOther_sum_eq (l : List Nat) :
    (everyOther l).sum = ∑ i in Finset.range l.length, if i % 2 = 0 then l.getD i 0 else 0 := by
  induction l using everyOther.induct with
  | case1 => simp [everyOther]
  | case2 a => simp [everyOther]
  | case3 a b rest ih =>
      have h2 : ∀ i : ℕ, (i + 2) % 2 = i % 2 := fun i => Nat.add_mod_right i 2
      simp only [everyOther, List.sum_cons, List.length_cons]
      rw [Finset.sum_range_succ', Finset.sum_range_succ']
      simp only [List.getD_cons_succ, List.getD_cons_zero]
      rw [ih]
      have h3 : ∀ x : ℕ, (1 + (x + 1)) % 2 = x % 2 := by intro x; omega
      simp [h3, Nat.add_comm]

lemma everyOther_tail_sum_eq (l : List Nat) :
    (everyOther l.tail).sum = ∑ i in Finset.range l.length, if i % 2 = 1 then l.getD i 0 else 0 := by
  cases l with
  | nil => simp [everyOther]
  | cons a t =>
      simp only [List.tail_cons, List.length_cons]
      rw [everyOther_sum_eq t, Finset.sum_range_succ']
      simp [Nat.succ_mod_two_eq_one_iff]

lemma map_digitVal_getD (s : PyStr) (i : ℕ) (h : i < s.length) :
    (s.map digitVal).getD i 0 = digitVal (s.getD i '0') := by
  simp [List.getD_eq_getElem?_getD, List.getElem?_map, List.getElem?_eq_getElem,
    h, List.getD]

lemma odd_sum_eq_oddPosSum (s : PyStr) :
    (everyOther (s.map digitVal)).sum = oddPosSum s := by
  rw [everyOther_sum_eq, oddPosSum]
  simp only [List.length_map]
  refine Finset.sum_congr rfl fun i hi => ?_
  rw [Finset.mem_range] at hi
  rw [map_digitVal_getD s i hi]
  exact if_congr (by omega) rfl rfl

lemma even_sum_eq_evenPosSum (s : PyStr) :
    (everyOther (s.map digitVal).tail).sum = evenPosSum s := by
  rw [everyOther_tail_sum_eq, evenPosSum]
  simp only [List.length_map]
  refine Finset.sum_congr rfl fun i hi => ?_
  rw [Finset.mem_range] at hi
  rw [map_digitVal_getD s i hi]
  exact if_congr (by omega) rfl rfl

lemma digitChar_isDigit (n : ℕ) (h : n < 10) : (Nat.digitChar n).isDigit = true := by
  interval_cases n <;> decide

lemma compute_upc_check_digit_length (s : PyStr) :
    (compute_upc_check_digit s).length = 1 := rfl

lemma compute_upc_check_digit_digits (s : PyStr) :
    ∀ c ∈ compute_upc_check_digit s, c.isDigit = true := by
  intro c hc
  simp only [compute_upc_check_digit, List.mem_singleton] at hc
  subst hc
  exact digitChar_isDigit _ (Nat.mod_lt _ (by norm_num))

/-- C1: `compute_upc_check_digit`, on an 11-digit ASCII string, returns the
single digit `(10 − ((3 × (sum at odd 1-indexed positions) + (sum at even
1-indexed positions)) mod 10)) mod 10`; being a pure function of its argument
it is deterministic, and it maps "03600029145" to "2". -/
theorem upc_check_digit_matches_standard (s : PyStr) (h11 : s.length = 11)
    (hdig : ∀ c ∈ s, c.isDigit = true) :
    compute_upc_check_digit s =
      [Nat.digitChar ((10 - (3 * oddPosSum s + evenPosSum s) % 10) % 10)] ∧
    compute_upc_check_digit "03600029145".toList = ['2'] := by
  constructor
  · show compute_upc_check_digit s = _
    rw [compute_upc_check_digit]
    rw [odd_sum_eq_oddPosSum, even_sum_eq_evenPosSum, Nat.mul_comm]
  · decide

/-- Witness for C1 at the concrete input "03600029145". -/
theorem upc_check_digit_matches_standard_witness :
    compute_upc_check_digit "03600029145".toList =
      [Nat.digitChar ((10 - (3 * oddPosSum "03600029145".toList +
        evenPosSum "03600029145".toList) % 10) % 10)] ∧
    compute_upc_check_digit "03600029145".toList = ['2'] :=
  upc_check_digit_matches_standard "03600029145".toList (by decide) (by decide)

/-- Functional specification of the ASCII model `ensure_upc12` (supporting
lemma for the amended C2, which scopes it to ASCII input strings where the
model agrees with the source): after stripping non-digits, 11 remaining
digits produce those digits plus the computed check digit; every successful
result is 12 digit characters ending in the check digit recomputed from its
first 11; 12 remaining digits are returned unchanged exactly when the
supplied 12th digit matches the recomputed one, else `none`; any other
count gives `none`. -/
theorem ensure_upc12_spec (s : PyStr) :
    ((upcClean s).length = 11 →
      ensure_upc12 s = some (upcClean s ++ compute_upc_check_digit (upcClean s))) ∧
    (∀ r, ensure_upc12 s = some r →
      r.length = 12 ∧ (∀ c ∈ r, c.isDigit = true) ∧
      r.drop 11 = compute_upc_check_digit (r.take 11)) ∧
    ((upcClean s).length = 12 →
      ((ensure_upc12 s = some (upcClean s)) ↔
        (upcClean s).drop 11 = compute_upc_check_digit ((upcClean s).take 11)) ∧
      ((upcClean s).drop 11 ≠ compute_upc_check_digit ((upcClean s).take 11) →
        ensure_upc12 s = none)) ∧
    ((upcClean s).length ≠ 11 → (upcClean s).length ≠ 12 →
      ensure_upc12 s = none) := by
  have hdig : ∀ c ∈ upcClean s, c.isDigit = true := by
    intro c hc; exact List.of_mem_filter hc
  refine ⟨?_, ?_, ?_, ?_⟩
  · intro h11
    rw [ensure_upc12, if_pos h11]
  · intro r hr
    rw [ensure_upc12] at hr
    split at hr
    · rename_i h11
      rw [Option.some_inj] at hr
      subst hr
      refine ⟨by simp [h11, compute_upc_check_digit_length], ?_, ?_⟩
      · intro c hc
        rcases List.mem_append.mp hc with hc | hc
        · exact hdig c hc
        · exact compute_upc_check_digit_digits _ c hc
      · rw [List.drop_append_of_le_length (by omega),
            List.take_append_of_le_length (by omega),
            List.drop_eq_nil_of_le (by omega), List.take_of_length_le (by omega)]
        rfl
    · split at hr
      · rename_i h12
        split at hr
        · rename_i heq
          rw [Option.some_inj] at hr
          subst hr
          exact ⟨h12, hdig, heq⟩
        · exact absurd hr (by simp)
      · exact absurd hr (by simp)
  · intro h12
    rw [ensure_upc12, if_neg (by omega), if_pos h12]
    refine ⟨⟨fun h => ?_, fun h => by rw [if_pos h]⟩, fun h => by rw [if_neg h]⟩
    by_contra hne
    rw [if_neg hne] at h
    exact Option.noConfusion h
  · intro h11 h12
    rw [ensure_upc12, if_neg h11, if_neg h12]

/-- Evaluation of `ensure_upc12_spec` at "036000291452" (a valid 12-digit
UPC-A). -/
theorem ensure_upc12_spec_witness :
    ensure_upc12 "036000291452".toList = some (upcClean "036000291452".toList) ∧
    ensure_upc12 "6291041".toList = none := by
  have h := ensure_upc12_spec "036000291452".toList
  have h2 := ensure_upc12_spec "6291041".toList
  exact ⟨(h.2.2.1 (by decide)).1.mpr (by decide), h2.2.2.2 (by decide) (by decide)⟩

/-- C3 counterexample: `epl.truncate_text` appends a three-character
sequence, so truncating "abcdef" to 5 yields 7 characters (> 5); and for
limit 0 even the ZPL variant exceeds the limit (Python `text[:-1]` keeps all
but the last character). -/
theorem truncate_text_claim_false :
    ¬ (((Epl.truncate_text "abcdef".toList 5).length : Int) ≤ 5) ∧
    ¬ (((Zpl.truncate_text "ab".toList 0).length : Int) ≤ 0) := by
  refine ⟨?_, ?_⟩ <;> decide

/-- C3 amended: for limits `n ≥ 1`, text of length ≤ `n` is returned
unchanged by both variants; longer text is cut to its first `n − 1`
characters, after which `zpl.truncate_text` appends the single ellipsis
character (result length exactly `n`, last character U+2026) while
`epl.truncate_text` appends the three-character mojibake sequence `â€¦`
(result length `n + 2`). -/
theorem truncate_text_amended (text : PyStr) (n : Int) (h1 : 1 ≤ n) :
    ((text.length : Int) ≤ n →
      Epl.truncate_text text n = text ∧ Zpl.truncate_text text n = text) ∧
    (n < (text.length : Int) →
      Zpl.truncate_text text n = text.take (n - 1).toNat ++ ['…'] ∧
      ((Zpl.truncate_text text n).length : Int) = n ∧
      (Zpl.truncate_text text n).getLast? = some '…' ∧
      Epl.truncate_text text n = text.take (n - 1).toNat ++ ['â', '€', '¦'] ∧
      ((Epl.truncate_text text n).length : Int) = n + 2) := by
  constructor
  · intro hle
    exact ⟨by rw [Epl.truncate_text, if_pos hle], by rw [Zpl.truncate_text, if_pos hle]⟩
  · intro hgt
    have hslice : pySliceTo text (n - 1) = text.take (n - 1).toNat := by
      rw [pySliceTo, if_neg (by omega)]
    have htake : (text.take (n - 1).toNat).length = (n - 1).toNat := by
      rw [List.length_take]
      omega
    have hz : Zpl.truncate_text text n = text.take (n - 1).toNat ++ ['…'] := by
      rw [Zpl.truncate_text, if_neg (by omega), hslice]
    have he : Epl.truncate_text text n = text.take (n - 1).toNat ++ ['â', '€', '¦'] := by
      rw [Epl.truncate_text, if_neg (by omega), hslice]
    refine ⟨hz, ?_, ?_, he, ?_⟩
    · rw [hz, List.length_append, htake]
      simp only [List.length_cons, List.length_nil]
      omega
    · rw [hz, List.getLast?_append]
      rfl
    · rw [he, List.length_append, htake]
      simp only [List.length_cons, List.length_nil]
      omega

/-- Witness for the amended C3 at `("abcdef", 5)`. -/
theorem truncate_text_amended_witness :
    Zpl.truncate_text "abcdef".toList 5 = "abcd".toList ++ ['…'] ∧
    ((Zpl.truncate_text "abcdef".toList 5).length : Int) = 5 ∧
    Epl.truncate_text "abcdef".toList 5 = "abcd".toList ++ ['â', '€', '¦'] ∧
    ((Epl.truncate_text "abcdef".toList 5).length : Int) = 7 := by
  have h := (truncate_text_amended "abcdef".toList 5 (by decide)).2 (by decide)
  exact ⟨h.1.trans (by decide), h.2.1, h.2.2.2.1.trans (by decide),
    h.2.2.2.2.trans (by decide)⟩

lemma pyWords_nil : pyWords [] = [] := rfl

lemma pyWords_cons_ws (c : Char) (rest : PyStr) (h : c.isWhitespace = true) :
    pyWords (c :: rest) = pyWords rest := by
  rw [pyWords, pyWordsAux]
  simp [h, pyWords]

lemma pyWordsAux_run (rest : PyStr) :
    ∀ acc, acc ≠ [] →
      pyWordsAux rest acc =
        (acc.reverse ++ rest.takeWhile (fun d => !d.isWhitespace)) ::
          pyWords (rest.dropWhile (fun d => !d.isWhitespace)) := by
  induction rest with
  | nil =>
      intro acc hacc
      rw [pyWordsAux, if_neg hacc]
      simp [pyWords, pyWordsAux]
  | cons d r' ih =>
      intro acc hacc
      rw [pyWordsAux]
      cases hd : d.isWhitespace
      · rw [if_neg (by simp [hd]), ih (d :: acc) (List.cons_ne_nil d acc),
          List.takeWhile_cons, List.dropWhile_cons]
        simp [hd]
      · rw [if_pos (by simp [hd]), if_neg hacc,
          List.takeWhile_cons, List.dropWhile_cons]
        simp only [hd, Bool.not_true, if_neg (by simp : ¬ (false = true)),
          List.append_nil]
        rw [pyWords, pyWordsAux, if_pos hd]
        simp [pyWords]

lemma pyWords_cons_nws (c : Char) (rest : PyStr) (h : c.isWhitespace = false) :
    pyWords (c :: rest) = (c :: rest.takeWhile (fun d => !d.isWhitespace)) ::
      pyWords (rest.dropWhile (fun d => !d.isWhitespace)) := by
  rw [pyWords, pyWordsAux, if_neg (by simp [h]),
    pyWordsAux_run rest [c] (List.cons_ne_nil c [])]
  rfl

/-- Case analysis / induction principle matching the word structure
consumed by `pyWords`. -/
lemma pyWords_rec (P : PyStr → Prop) (h0 : P [])
    (hws : ∀ c rest, c.isWhitespace = true → P rest → P (c :: rest))
    (hnws : ∀ c rest, c.isWhitespace = false →
      P (rest.dropWhile (fun d => !d.isWhitespace)) → P (c :: rest)) :
    ∀ s, P s := by
  have key : ∀ n (s : PyStr), s.length ≤ n → P s := by
    intro n
    induction n with
    | zero =>
        intro s hs
        rw [List.length_eq_zero.mp (Nat.le_antisymm hs (Nat.zero_le _))]
        exact h0
    | succ n ih =>
        intro s hs
        cases s with
        | nil => exact h0
        | cons c rest =>
            rw [List.length_cons] at hs
            cases hc : c.isWhitespace
            · refine hnws c rest hc (ih _ ?_)
              have := (List.dropWhile_sublist (l := rest) (fun d => !d.isWhitespace)).length_le
              omega
            · exact hws c rest hc (ih rest (by omega))
  exact fun s => key s.length s le_rfl

lemma pyWords_mem (s : PyStr) : ∀ w ∈ pyWords s, goodWord w := by
  induction s using pyWords_rec with
  | h0 => intro w hw; rw [pyWords_nil] at hw; exact absurd hw (List.not_mem_nil w)
  | hws c rest hws ih =>
      intro w hw
      rw [pyWords_cons_ws c rest hws] at hw
      exact ih w hw
  | hnws c rest hws ih =>
      intro w hw
      rw [pyWords_cons_nws c rest hws] at hw
      rcases List.mem_cons.mp hw with hw | hw
      · subst hw
        refine ⟨List.cons_ne_nil _ _, ?_⟩
        intro d hd
        rcases List.mem_cons.mp hd with hd | hd
        · subst hd; exact hws
        · have := List.mem_takeWhile_imp hd
          simpa using this
      · exact ih w hw

lemma takeWhile_append_stop (p : Char → Bool) (hp : p ' ' = false) (a b : PyStr) :
    (a ++ ' ' :: b).takeWhile p = a.takeWhile p := by
  induction a with
  | nil => simp [List.takeWhile_cons, hp]
  | cons c rest ih =>
      rw [List.cons_append, List.takeWhile_cons, List.takeWhile_cons]
      cases hpc : p c
      · simp
      · simp [ih]

lemma dropWhile_append_stop (p : Char → Bool) (hp : p ' ' = false) (a b : PyStr) :
    (a ++ ' ' :: b).dropWhile p = a.dropWhile p ++ ' ' :: b := by
  induction a with
  | nil => simp [List.dropWhile_cons, hp]
  | cons c rest ih =>
      rw [List.cons_append, List.dropWhile_cons, List.dropWhile_cons]
      cases hpc : p c
      · simp
      · simp [ih]

lemma pyWords_append_space (a b : PyStr) :
    pyWords (a ++ ' ' :: b) = pyWords a ++ pyWords b := by
  induction a using pyWords_rec with
  | h0 =>
      rw [List.nil_append, pyWords_cons_ws ' ' b (by decide), pyWords_nil, List.nil_append]
  | hws c rest h ih =>
      rw [List.cons_append, pyWords_cons_ws c _ h, ih, pyWords_cons_ws c _ h]
  | hnws c rest h ih =>
      rw [List.cons_append, pyWords_cons_nws c _ h,
        takeWhile_append_stop _ (by decide), dropWhile_append_stop _ (by decide),
        ih, pyWords_cons_nws c _ h, List.cons_append]

lemma pyWords_single (w : PyStr) (hw : goodWord w) : pyWords w = [w] := by
  obtain ⟨hne, hws⟩ := hw
  cases w with
  | nil => exact absurd rfl hne
  | cons c rest =>
      rw [pyWords_cons_nws c rest (hws c (List.mem_cons_self c rest)),
        List.takeWhile_eq_self_iff.mpr ?_, List.dropWhile_eq_nil_iff.mpr ?_, pyWords_nil]
      · intro d hd; simp [hws d (List.mem_cons_of_mem c hd)]
      · intro d hd; simp [hws d (List.mem_cons_of_mem c hd)]

lemma pyWords_joinSpace (ls : List PyStr) :
    pyWords (joinSpace ls) = lineWords ls := by
  induction ls using joinSpace.induct with
  | case1 => rw [joinSpace, pyWords_nil]; rfl
  | case2 l => simp [joinSpace, lineWords]
  | case3 l snd rest ih =>
      rw [joinSpace, pyWords_append_space, ih]
      simp [lineWords]

lemma lineWords_append (a b : List PyStr) :
    lineWords (a ++ b) = lineWords a ++ lineWords b := by
  simp [lineWords]

lemma lineWords_singleton (l : PyStr) : lineWords [l] = pyWords l := by
  simp [lineWords]

lemma wrap_fold_inv (mc : Int) :
    ∀ (ws : List PyStr), (∀ w ∈ ws, goodWord w) →
    ∀ (lines : List PyStr) (cur : PyStr),
      (∀ l ∈ lines, okLine mc l) → okLine mc cur →
      (∀ l ∈ (ws.foldl (wrapStep mc) (lines, cur)).1, okLine mc l) ∧
      okLine mc (ws.foldl (wrapStep mc) (lines, cur)).2 ∧
      lineWords (ws.foldl (wrapStep mc) (lines, cur)).1 ++
          pyWords (ws.foldl (wrapStep mc) (lines, cur)).2 =
        lineWords lines ++ pyWords cur ++ ws := by
  intro ws
  induction ws with
  | nil =>
      intro _ lines cur hlines hcur
      simpa using ⟨hlines, hcur⟩
  | cons w ws' ih =>
      intro hws lines cur hlines hcur
      have hw : goodWord w := hws w (List.mem_cons_self w ws')
      have hws' : ∀ v ∈ ws', goodWord v := fun v hv => hws v (List.mem_cons_of_mem w hv)
      rw [List.foldl_cons, wrapStep]
      dsimp only
      by_cases hfit : ((cur ++ ' ' :: w).length : Int) ≤ mc
      · rw [if_pos hfit]
        by_cases hc : cur = []
        · rw [if_pos hc]
          obtain ⟨h1, h2, h3⟩ := ih hws' lines w hlines (Or.inr hw.2)
          refine ⟨h1, h2, ?_⟩
          rw [h3, pyWords_single w hw, hc, pyWords_nil]
          simp
        · rw [if_neg hc]
          obtain ⟨h1, h2, h3⟩ := ih hws' lines (cur ++ ' ' :: w) hlines (Or.inl hfit)
          refine ⟨h1, h2, ?_⟩
          rw [h3, pyWords_append_space, pyWords_single w hw]
          simp
      · rw [if_neg hfit]
        by_cases hc : cur = []
        · rw [if_pos hc]
          obtain ⟨h1, h2, h3⟩ := ih hws' lines w hlines (Or.inr hw.2)
          refine ⟨h1, h2, ?_⟩
          rw [h3, pyWords_single w hw, hc, pyWords_nil]
          simp
        · rw [if_neg hc]
          have hlines' : ∀ l ∈ lines ++ [cur], okLine mc l := by
            intro l hl
            rcases List.mem_append.mp hl with hl | hl
            · exact hlines l hl
            · rw [List.mem_singleton.mp hl]; exact hcur
          obtain ⟨h1, h2, h3⟩ := ih hws' (lines ++ [cur]) w hlines' (Or.inr hw.2)
          refine ⟨h1, h2, ?_⟩
          rw [h3, pyWords_single w hw, lineWords_append, lineWords_singleton]
          simp

lemma pySliceTo_mem {α : Type} {l : List α} {k : Int} :
    ∀ x ∈ pySliceTo l k, x ∈ l := by
  intro x hx
  rw [pySliceTo] at hx
  exact List.mem_of_mem_take hx

lemma pySliceTo_length_le {α : Type} (l : List α) (k : Int) (hk : 0 ≤ k) :
    ((pySliceTo l k).length : Int) ≤ k := by
  rw [pySliceTo, if_neg (by omega), List.length_take]
  omega

lemma lineWords_pySliceTo_prefixOf (ls : List PyStr) (k : Int) :
    lineWords (pySliceTo ls k) <+: lineWords ls := by
  rw [pySliceTo]
  refine ⟨lineWords (ls.drop (if k < 0 then ((ls.length : Int) + k).toNat else k.toNat)), ?_⟩
  rw [← lineWords_append, List.take_append_drop]

/-- C4 counterexample: with `max_chars = 5` the input "aaaaaa bb" produces
the line "aaaaaa" of length 6 > 5 (a single word longer than the limit is
emitted uncut); and with `max_lines = 0` the short-circuit branch still
returns one line. -/
theorem wrap_text_claim_false :
    ¬ (∀ l ∈ wrap_text "aaaaaa bb".toList 5 2, (l.length : Int) ≤ 5) ∧
    ¬ (((wrap_text "ab".toList 10 0).length : Int) ≤ 0) := by
  constructor
  · intro h
    have := h "aaaaaa".toList (by decide)
    exact absurd this (by decide)
  · decide

/-- C4 amended: for `max_lines ≥ 1`, `wrap_text` returns at most
`max_lines` lines; every returned line is within `max_chars` **or** is a
single whitespace-free word (a word longer than the limit occupies its own
uncut line); the space-joined concatenation of the returned lines is a
word-for-word prefix of the whitespace-split input; and the `wrap_text` of
`app/utils/preview.py` is the EPL one with `max_lines = 2`. -/
theorem wrap_text_amended (text : PyStr) (mc ml : Int) (hml : 1 ≤ ml) :
    ((wrap_text text mc ml).length : Int) ≤ ml ∧
    (∀ l ∈ wrap_text text mc ml, okLine mc l) ∧
    pyWords (joinSpace (wrap_text text mc ml)) <+: pyWords text ∧
    preview_wrap_text text mc = wrap_text text mc 2 := by
  refine ?_
  by_cases h0 : text = []
  · subst h0
    rw [wrap_text, if_pos rfl]
    refine ⟨by simpa using hml, ?_, ?_, rfl⟩
    · intro l hl
      rw [List.mem_singleton.mp hl]
      exact Or.inr (by simp)
    · rw [joinSpace, pyWords_nil]
  · by_cases h1 : (text.length : Int) ≤ mc
    · rw [wrap_text, if_neg h0, if_pos h1]
      refine ⟨by simpa using hml, ?_, ?_, rfl⟩
      · intro l hl
        rw [List.mem_singleton.mp hl]
        exact Or.inl h1
      · rw [joinSpace]
    · rw [wrap_text, if_neg h0, if_neg h1]
      simp only []
      obtain ⟨hlines, hcur, hjoin⟩ :=
        wrap_fold_inv mc (pyWords text) (pyWords_mem text) [] []
          (by intro l hl; exact absurd hl (List.not_mem_nil l))
          (Or.inr (by simp))
      set st := (pyWords text).foldl (wrapStep mc) ([], []) with hst
      have hj2 : lineWords st.1 ++ pyWords st.2 = pyWords text := by
        have hnil : lineWords ([] : List PyStr) = [] := rfl
        rw [hjoin, hnil, pyWords_nil, List.nil_append, List.nil_append]
      have hfinal : lineWords (if st.2 = [] then st.1 else st.1 ++ [st.2]) = pyWords text := by
        split
        · rename_i h2
          rw [h2, pyWords_nil, List.append_nil] at hj2
          exact hj2
        · rw [lineWords_append, lineWords_singleton]
          exact hj2
      have hok : ∀ l ∈ (if st.2 = [] then st.1 else st.1 ++ [st.2]), okLine mc l := by
        split
        · exact hlines
        · intro l hl
          rcases List.mem_append.mp hl with hl | hl
          · exact hlines l hl
          · rw [List.mem_singleton.mp hl]; exact hcur
      refine ⟨pySliceTo_length_le _ _ (by omega), ?_, ?_, rfl⟩
      · intro l hl
        exact hok l (pySliceTo_mem l hl)
      · rw [pyWords_joinSpace, ← hfinal]
        exact lineWords_pySliceTo_prefixOf _ _

/-- Witness for the amended C4 at `("hello world here", 11, 2)`. -/
theorem wrap_text_amended_witness :
    ((wrap_text "hello world here".toList 11 2).length : Int) ≤ 2 ∧
    (∀ l ∈ wrap_text "hello world here".toList 11 2, okLine 11 l) ∧
    pyWords (joinSpace (wrap_text "hello world here".toList 11 2)) <+:
      pyWords "hello world here".toList ∧
    preview_wrap_text "hello world here".toList 11 = wrap_text "hello world here".toList 11 2 :=
  wrap_text_amended "hello world here".toList 11 2 (by decide)

/-- C5 counterexample: on the unknown key "foo" the fallback entry is
812×1218 dots (4in × 203 dpi = 812), not the 406×1218 the claim states. -/
theorem get_label_size_claim_false :
    ¬ ((get_label_size_dots "foo".toList).width_dots = 406 ∧
       (get_label_size_dots "foo".toList).height_dots = 1218) := by
  decide

/-- C5 amended: `get_label_size_dots` is an exact lookup; every unknown key
returns the canonical 4×6-inch entry of **812×1218** dots at 203 dpi rather
than failing, and the known keys "2x1" and "4x6" return their own entries
with positive width and height. -/
theorem get_label_size_amended (key : PyStr)
    (h2 : key ≠ "2x1".toList) (h4 : key ≠ "4x6".toList) :
    get_label_size_dots key = ⟨812, 1218⟩ ∧
    get_label_size_dots "2x1".toList = ⟨406, 203⟩ ∧
    get_label_size_dots "4x6".toList = ⟨812, 1218⟩ ∧
    0 < (get_label_size_dots "2x1".toList).width_dots ∧
    0 < (get_label_size_dots "2x1".toList).height_dots ∧
    0 < (get_label_size_dots "4x6".toList).width_dots ∧
    0 < (get_label_size_dots "4x6".toList).height_dots := by
  refine ⟨?_, by decide, by decide, by decide, by decide, by decide, by decide⟩
  have b2 : (key == "2x1".toList) = false := beq_eq_false_iff_ne.mpr h2
  have b4 : (key == "4x6".toList) = false := beq_eq_false_iff_ne.mpr h4
  rw [get_label_size_dots, LABEL_SIZES_DOTS]
  rw [List.lookup, b2, List.lookup, b4, List.lookup]
  rfl

/-- Witness for the amended C5 at the unknown key "foo". -/
theorem get_label_size_amended_witness :
    get_label_size_dots "foo".toList = ⟨812, 1218⟩ ∧
    get_label_size_dots "2x1".toList = ⟨406, 203⟩ :=
  ⟨(get_label_size_amended "foo".toList (by decide) (by decide)).1,
   (get_label_size_amended "foo".toList (by decide) (by decide)).2.1⟩

lemma char_toNat_lt (c : Char) : c.toNat < 1114112 := by
  have h := c.valid
  rw [Char.toNat]
  rcases h with h | h
  · have : c.val.toNat < 55296 := h
    omega
  · exact h.2

lemma utf8EncodeChar_lt_256 (c : Char) : ∀ b ∈ utf8EncodeChar c, b < 256 := by
  intro b hb
  have hn := char_toNat_lt c
  rw [utf8EncodeChar] at hb
  split at hb
  · rename_i h1
    rw [List.mem_singleton.mp hb]; omega
  · split at hb
    · rename_i h1 h2
      have hd : c.toNat / 64 < 32 := Nat.div_lt_of_lt_mul (by omega)
      have hm : c.toNat % 64 < 64 := Nat.mod_lt _ (by omega)
      rcases List.mem_cons.mp hb with hb | hb
      · omega
      · rw [List.mem_singleton.mp hb]; omega
    · split at hb
      · rename_i h1 h2 h3
        have hd : c.toNat / 4096 < 16 := Nat.div_lt_of_lt_mul (by omega)
        have hm1 : c.toNat / 64 % 64 < 64 := Nat.mod_lt _ (by omega)
        have hm : c.toNat % 64 < 64 := Nat.mod_lt _ (by omega)
        rcases List.mem_cons.mp hb with hb | hb
        · omega
        rcases List.mem_cons.mp hb with hb | hb
        · omega
        · rw [List.mem_singleton.mp hb]; omega
      · rename_i h1 h2 h3
        have hd : c.toNat / 262144 < 5 := Nat.div_lt_of_lt_mul (by omega)
        have hm2 : c.toNat / 4096 % 64 < 64 := Nat.mod_lt _ (by omega)
        have hm1 : c.toNat / 64 % 64 < 64 := Nat.mod_lt _ (by omega)
        have hm : c.toNat % 64 < 64 := Nat.mod_lt _ (by omega)
        rcases List.mem_cons.mp hb with hb | hb
        · omega
        rcases List.mem_cons.mp hb with hb | hb
        · omega
        rcases List.mem_cons.mp hb with hb | hb
        · omega
        · rw [List.mem_singleton.mp hb]; omega

/-- C8 counterexample: already a one-character title "é" (U+00E9) makes the
ZPL buffer non-ASCII: UTF-8 encodes it as the bytes 195, 169, and 195 is
not below 128 (nothing is dropped or replaced). -/
theorem zpl_nonascii_byte :
    195 ∈ build_zpl_label "2x1".toList [] [] ['é'] [] 1 ∧ ¬ (195 < 128) := by
  refine ⟨by decide, by decide⟩

/-- C8 amended: for every input, `build_epl_label` yields pure ASCII — every
byte is below 128, non-encodable characters are silently dropped by the
`errors="ignore"` encode, and encoding is total; `build_zpl_label` is also
total but encodes UTF-8, so its bytes are only bounded by 256 and non-ASCII
characters survive as multi-byte sequences instead of being dropped. -/
theorem encoding_totality_spec (size_key item_number upc12 title casepack : PyStr)
    (copies : Int) (settings : Option LabelSettings) :
    (∀ b ∈ build_epl_label size_key item_number upc12 title casepack copies settings,
      b < 128) ∧
    (∀ b ∈ build_zpl_label size_key item_number upc12 title casepack copies,
      b < 256) := by
  constructor
  · intro b hb
    rw [build_epl_label, encodeAsciiIgnore] at hb
    obtain ⟨c, hc, rfl⟩ := List.mem_map.mp hb
    have := List.of_mem_filter hc
    simpa using this
  · intro b hb
    rw [build_zpl_label, encodeUtf8] at hb
    obtain ⟨l, hl, hbl⟩ := List.mem_flatten.mp hb
    obtain ⟨c, _, rfl⟩ := List.mem_map.mp hl
    exact utf8EncodeChar_lt_256 c b hbl

/-- C6 counterexample: for the spec's scenario (upc input "6291041", seven
digits), the ZPL buffer still contains its barcode directive `^BU` — the
ZPL builder emits it unconditionally — contradicting "no barcode directive
in either language". -/
theorem zpl_short_upc_emits_barcode :
    "^BU".toList <:+:
      (build_zpl_elems "2x1".toList "SKU-100".toList "6291041".toList
        "Widget".toList "12".toList 1).flatten := by
  decide

/-- C6 amended: in the scenario (item "SKU-100", upc input "6291041", title
"Widget", casepack "12", copies 1, size "2x1"), both builders run to
completion; the EPL buffer contains the title, item and casepack commands
and **no** barcode (`B`) directive, while the ZPL buffer contains the three
field texts **and** its unconditional `^BU` barcode directive carrying the
raw seven-digit payload. -/
theorem short_upc_degrade_amended :
    ((build_epl_lines "2x1".toList "SKU-100".toList "6291041".toList
        "Widget".toList "12".toList 1 none).filter (headIs 'B') = [] ∧
      (∃ l ∈ build_epl_lines "2x1".toList "SKU-100".toList "6291041".toList
        "Widget".toList "12".toList 1 none, "\"Widget\"".toList <:+: l) ∧
      (∃ l ∈ build_epl_lines "2x1".toList "SKU-100".toList "6291041".toList
        "Widget".toList "12".toList 1 none, "\"SKU-100\"".toList <:+: l) ∧
      (∃ l ∈ build_epl_lines "2x1".toList "SKU-100".toList "6291041".toList
        "Widget".toList "12".toList 1 none, "CS/PK: 12".toList <:+: l)) ∧
    ("FDWidget".toList <:+:
        (build_zpl_elems "2x1".toList "SKU-100".toList "6291041".toList
          "Widget".toList "12".toList 1).flatten ∧
      "Item: SKU-100".toList <:+:
        (build_zpl_elems "2x1".toList "SKU-100".toList "6291041".toList
          "Widget".toList "12".toList 1).flatten ∧
      "Casepack: 12".toList <:+:
        (build_zpl_elems "2x1".toList "SKU-100".toList "6291041".toList
          "Widget".toList "12".toList 1).flatten ∧
      "^FD6291041^FS".toList <:+:
        (build_zpl_elems "2x1".toList "SKU-100".toList "6291041".toList
          "Widget".toList "12".toList 1).flatten) := by
  refine ⟨⟨by decide, by decide, by decide, by decide⟩, by decide, by decide, by decide, by decide⟩

/-- C7 counterexample: with the 30-character title "Extra Large Widget
Deluxe Pack", the ZPL buffer contains the full title (its limit is 36)
while the EPL buffer does not (its default limit is 24, after which the
title is word-wrapped): the outputs differ in visible text content, not
only in directive syntax. -/
theorem epl_zpl_title_text_differs :
    ("Extra Large Widget Deluxe Pack".toList <:+:
      (build_zpl_elems "2x1".toList "A1".toList [] "Extra Large Widget Deluxe Pack".toList
        "6".toList 1).flatten) ∧
    ¬ ("Extra Large Widget Deluxe Pack".toList <:+:
      (build_epl_lines "2x1".toList "A1".toList [] "Extra Large Widget Deluxe Pack".toList
        "6".toList 1 none).flatten) := by
  refine ⟨by decide, by decide⟩

lemma eplDefaults_limits (k : PyStr) :
    (eplDefaults k).title_max_chars = 24 ∧ (eplDefaults k).max_title_lines = 2 ∧
    (eplDefaults k).case_max_chars = 36 ∧ (eplDefaults k).item_max_chars = 36 := by
  rw [eplDefaults]
  split <;> exact ⟨rfl, rfl, rfl, rfl⟩

lemma length_ite_singleton {α : Type} (c : Prop) [Decidable c] (x : α) :
    (if c then [x] else []).length = if c then 1 else 0 := by
  split <;> rfl

/-- C7 amended: the two generators do **not** share text-layout rules.  The
ZPL element count is a constant 11 (12 with an explicit copy count) —
single title line truncated at 36, fixed positions, no separator, no
cascade — while the EPL line count varies with the wrapped title (truncated
at the default 24, wrapped to at most 2 lines), the separator condition,
the casepack presence and the barcode guard. -/
theorem epl_zpl_layout_divergence (size_key item_number upc12 title casepack : PyStr)
    (copies : Int) :
    (build_zpl_elems size_key item_number upc12 title casepack copies).length =
      (if 1 < copies then 12 else 11) ∧
    (build_epl_lines size_key item_number upc12 title casepack copies none).length =
      5 + (wrap_text (Epl.truncate_text title 24) 24 2).length +
        ((if eplSepCond (eplDefaults size_key)
              (wrap_text (Epl.truncate_text title 24) 24 2) = true then 1 else 0) +
         ((if Epl.truncate_text casepack 36 ≠ [] then 1 else 0) +
          (if epl_upc_payload upc12 ≠ [] ∧ 11 ≤ (epl_upc_payload upc12).length
            then 1 else 0))) := by
  constructor
  · simp only [build_zpl_elems, List.length_append, List.length_cons,
      List.length_nil, length_ite_singleton]
    split <;> rfl
  · obtain ⟨hT, hM, hC, _⟩ := eplDefaults_limits size_key
    have hparams : eplParams size_key none = eplDefaults size_key := rfl
    simp only [build_epl_lines, hparams, hT, hM, hC, List.length_append,
      List.length_cons, List.length_nil, List.length_map, List.enum_length,
      length_ite_singleton]
    omega

lemma filter_headIs_map_nil {α : Type} (c : Char) (f : α → PyStr) (L : List α)
    (h : ∀ x, headIs c (f x) = false) : (L.map f).filter (headIs c) = [] := by
  induction L with
  | nil => rfl
  | cons a l ih => simp [List.filter_cons, h a, ih]

lemma filter_ite_singleton_nil {p : PyStr → Bool} (c : Prop) [Decidable c] (x : PyStr)
    (h : p x = false) : (if c then [x] else []).filter p = [] := by
  split
  · simp [List.filter_cons, h]
  · rfl

/-- C9 counterexample: with `copies = 1` the EPL output still carries the
explicit copy-count directive `P1` — not an implicit single copy with no
directive as the claim states. -/
theorem epl_p1_directive_present :
    _e ['P', '1'] ∈ build_epl_lines "4x6".toList "ABC".toList "036000291452".toList
      "Test Item".toList "6".toList 1 none ∧
    headIs 'P' (_e ['P', '1']) = true := by
  refine ⟨by decide, rfl⟩

/-- C9 amended: for `copies > 1` each generator's output carries exactly one
copy-count directive with that value (`P{copies}` / `^PQ{copies}`); for
`copies ≤ 1` the ZPL output has no `^PQ` directive (implicit single copy),
but the EPL output always ends in an explicit `P1` print directive. -/
theorem copies_directive_spec (size_key item_number upc12 title casepack : PyStr)
    (copies : Int) (settings : Option LabelSettings) :
    (build_epl_lines size_key item_number upc12 title casepack copies settings).filter
        (headIs 'P') =
      [if 1 < copies then _e ('P' :: pyIntStr copies) else _e ['P', '1']] ∧
    (build_zpl_elems size_key item_number upc12 title casepack copies).filter
        startsWithPQ =
      (if 1 < copies then ['^' :: 'P' :: 'Q' :: pyIntStr copies] else []) := by
  constructor
  · have hN : headIs 'P' (_e ['N']) = false := rfl
    have hq : ∀ x : PyStr, headIs 'P' (_e ('q' :: x)) = false := fun _ => rfl
    have hQ : ∀ x : PyStr, headIs 'P' (_e ('Q' :: x)) = false := fun _ => rfl
    have hTitle : ∀ (P : LabelSettings) (y : Int) (s : PyStr),
        headIs 'P' (eplTitleCmd P y s) = false := fun _ _ _ => rfl
    have hSep : ∀ (P : LabelSettings) (y : Int),
        headIs 'P' (eplSepCmd P y) = false := fun _ _ => rfl
    have hItem : ∀ (P : LabelSettings) (y : Int) (s : PyStr),
        headIs 'P' (eplItemCmd P y s) = false := fun _ _ _ => rfl
    have hCase : ∀ (P : LabelSettings) (y : Int) (s : PyStr),
        headIs 'P' (eplCaseCmd P y s) = false := fun _ _ _ => rfl
    have hBar : ∀ (P : LabelSettings) (y : Int) (s : PyStr),
        headIs 'P' (eplBarcodeCmd P y s) = false := fun _ _ _ => rfl
    have hP : ∀ x : PyStr, headIs 'P' (_e ('P' :: x)) = true := fun _ => rfl
    simp only [build_epl_lines, List.filter_append, List.filter_cons, List.filter_nil,
      hN, hq, hQ, Bool.false_eq_true, if_false, List.nil_append]
    rw [filter_headIs_map_nil 'P' _ _ (fun p => hTitle _ _ _),
      filter_ite_singleton_nil _ _ (hSep _ _),
      filter_ite_singleton_nil _ _ (hCase _ _ _),
      filter_ite_singleton_nil _ _ (hBar _ _ _)]
    simp only [List.filter_cons, hItem, Bool.false_eq_true, if_false,
      List.nil_append, List.append_nil]
    by_cases hc : 1 < copies <;>
      simp [hc, List.filter_cons, hP, List.filter_nil]
  · have z1 : startsWithPQ ('^' :: 'X' :: ['A']) = false := rfl
    have z2 : ∀ x : PyStr, startsWithPQ ('^' :: 'P' :: 'W' :: x) = false := fun _ => rfl
    have z3 : ∀ x : PyStr, startsWithPQ ('^' :: 'L' :: 'L' :: x) = false := fun _ => rfl
    have z4 : startsWithPQ ('^' :: 'L' :: 'H' :: "0,0".toList) = false := rfl
    have z5 : startsWithPQ ('^' :: 'C' :: 'I' :: "28".toList) = false := rfl
    have z6 : ∀ (y fh fw : Int) (d : PyStr),
        startsWithPQ (zplTextCmd y fh fw d) = false := fun _ _ _ _ => rfl
    have z7 : startsWithPQ ('^' :: 'B' :: 'Y' :: "2,2,10".toList) = false := rfl
    have z8 : ∀ (y h : Int) (d : PyStr),
        startsWithPQ (zplBarcodeCmd y h d) = false := fun _ _ _ => rfl
    have z9 : ∀ x : PyStr, startsWithPQ ('^' :: 'P' :: 'Q' :: x) = true := by
      intro x
      simp [startsWithPQ, List.isPrefixOf]
    have z10 : startsWithPQ ('^' :: 'X' :: ['Z']) = false := rfl
    simp only [build_zpl_elems, List.filter_append, List.filter_cons, List.filter_nil,
      z1, z2, z3, z4, z5, z6, z7, z8, z10, Bool.false_eq_true, if_false,
      List.nil_append, List.append_nil]
    by_cases hc : 1 < copies <;>
      simp [hc, List.filter_cons, z9, List.filter_nil]

/-- Witness for C9 at `copies = 3` and at `copies = 1` (spec scenario
fields, size "4x6"). -/
theorem copies_directive_spec_witness :
    (build_epl_lines "4x6".toList "ABC".toList "036000291452".toList "Test Item".toList
        "6".toList 3 none).filter (headIs 'P') = [_e ['P', '3']] ∧
    (build_zpl_elems "4x6".toList "ABC".toList "036000291452".toList "Test Item".toList
        "6".toList 3).filter startsWithPQ = [['^', 'P', 'Q', '3']] := by
  have h := copies_directive_spec "4x6".toList "ABC".toList "036000291452".toList
    "Test Item".toList "6".toList 3 none
  exact ⟨h.1.trans (by decide), h.2.trans (by decide)⟩

lemma filter_ite_singleton_self {p : PyStr → Bool} (c : Prop) [Decidable c] (x : PyStr)
    (h : p x = true) : (if c then [x] else []).filter p = if c then [x] else [] := by
  split <;> simp [List.filter_cons, h]

lemma epl_upc_payload_digits (upc12 : PyStr) :
    ∀ c ∈ epl_upc_payload upc12, c.isDigit = true := by
  intro c hc
  simp only [epl_upc_payload] at hc
  split at hc
  · exact List.of_mem_filter (List.mem_of_mem_take hc)
  · split at hc
    · rcases List.mem_append.mp hc with h | h
      · exact List.of_mem_filter h
      · exact compute_upc_check_digit_digits _ c h
    · exact List.of_mem_filter hc

/-- Barcode-payload specification of the ASCII model (supporting lemma for
the amended C10, which scopes it to ASCII `upc12` arguments where the model
agrees with the source): 12 or more digits in `upc12` yield the first 12
of them (no check-digit validation), exactly 11 yield them plus the
computed check digit, and with 10 or fewer digits no `B` directive is
emitted at all. -/
theorem epl_barcode_payload_spec (size_key item_number upc12 title casepack : PyStr)
    (copies : Int) (settings : Option LabelSettings) :
    (12 ≤ (upc12.filter fun ch => ch.isDigit).length →
      epl_upc_payload upc12 = (upc12.filter fun ch => ch.isDigit).take 12) ∧
    ((upc12.filter fun ch => ch.isDigit).length = 11 →
      epl_upc_payload upc12 = (upc12.filter fun ch => ch.isDigit) ++
        compute_upc_check_digit (upc12.filter fun ch => ch.isDigit)) ∧
    (11 ≤ (upc12.filter fun ch => ch.isDigit).length →
      (epl_upc_payload upc12).length = 12 ∧
      (∀ c ∈ epl_upc_payload upc12, c.isDigit = true) ∧
      (build_epl_lines size_key item_number upc12 title casepack copies settings).filter
          (headIs 'B') =
        [eplBarcodeCmd (eplParams size_key settings)
          (eplAdjustY (eplParams size_key settings)
            (wrap_text
              (Epl.truncate_text title (eplParams size_key settings).title_max_chars)
              (eplParams size_key settings).title_max_chars
              (eplParams size_key settings).max_title_lines)
            (eplParams size_key settings).barcode_y)
          (epl_upc_payload upc12)]) ∧
    ((upc12.filter fun ch => ch.isDigit).length ≤ 10 →
      (build_epl_lines size_key item_number upc12 title casepack copies settings).filter
          (headIs 'B') = []) := by
  have hN : headIs 'B' (_e ['N']) = false := rfl
  have hq : ∀ x : PyStr, headIs 'B' (_e ('q' :: x)) = false := fun _ => rfl
  have hQ : ∀ x : PyStr, headIs 'B' (_e ('Q' :: x)) = false := fun _ => rfl
  have hTitle : ∀ (P : LabelSettings) (y : Int) (s : PyStr),
      headIs 'B' (eplTitleCmd P y s) = false := fun _ _ _ => rfl
  have hSep : ∀ (P : LabelSettings) (y : Int),
      headIs 'B' (eplSepCmd P y) = false := fun _ _ => rfl
  have hItem : ∀ (P : LabelSettings) (y : Int) (s : PyStr),
      headIs 'B' (eplItemCmd P y s) = false := fun _ _ _ => rfl
  have hCase : ∀ (P : LabelSettings) (y : Int) (s : PyStr),
      headIs 'B' (eplCaseCmd P y s) = false := fun _ _ _ => rfl
  have hBarT : ∀ (P : LabelSettings) (y : Int) (s : PyStr),
      headIs 'B' (eplBarcodeCmd P y s) = true := fun _ _ _ => rfl
  have hPc : ∀ x : PyStr, headIs 'B' (_e ('P' :: x)) = false := fun _ => rfl
  have key : (build_epl_lines size_key item_number upc12 title casepack copies
        settings).filter (headIs 'B') =
      (if epl_upc_payload upc12 ≠ [] ∧ 11 ≤ (epl_upc_payload upc12).length then
        [eplBarcodeCmd (eplParams size_key settings)
          (eplAdjustY (eplParams size_key settings)
            (wrap_text
              (Epl.truncate_text title (eplParams size_key settings).title_max_chars)
              (eplParams size_key settings).title_max_chars
              (eplParams size_key settings).max_title_lines)
            (eplParams size_key settings).barcode_y)
          (epl_upc_payload upc12)]
      else []) := by
    simp only [build_epl_lines, List.filter_append, List.filter_cons, List.filter_nil,
      hN, hq, hQ, Bool.false_eq_true, if_false, List.nil_append]
    rw [filter_headIs_map_nil 'B' _ _ (fun p => hTitle _ _ _),
      filter_ite_singleton_nil _ _ (hSep _ _),
      filter_ite_singleton_nil _ _ (hCase _ _ _),
      filter_ite_singleton_self _ _ (hBarT _ _ _)]
    have hlast : headIs 'B'
        (if 1 < copies then _e ('P' :: pyIntStr copies) else _e ['P', '1']) = false := by
      by_cases hc : 1 < copies <;> simp [hc, hPc]
    simp only [List.filter_cons, hItem, hlast, Bool.false_eq_true, if_false,
      List.filter_nil, List.nil_append, List.append_nil]
  have hp12 : 12 ≤ (upc12.filter fun ch => ch.isDigit).length →
      epl_upc_payload upc12 = (upc12.filter fun ch => ch.isDigit).take 12 := by
    intro h
    simp only [epl_upc_payload]
    rw [if_pos h]
  have hp11 : (upc12.filter fun ch => ch.isDigit).length = 11 →
      epl_upc_payload upc12 = (upc12.filter fun ch => ch.isDigit) ++
        compute_upc_check_digit (upc12.filter fun ch => ch.isDigit) := by
    intro h
    simp only [epl_upc_payload]
    rw [if_neg (by omega), if_pos h]
  have hlen : 11 ≤ (upc12.filter fun ch => ch.isDigit).length →
      (epl_upc_payload upc12).length = 12 := by
    intro h
    by_cases h12 : 12 ≤ (upc12.filter fun ch => ch.isDigit).length
    · rw [hp12 h12, List.length_take]
      omega
    · have h11 : (upc12.filter fun ch => ch.isDigit).length = 11 := by omega
      rw [hp11 h11, List.length_append, compute_upc_check_digit_length, h11]
  refine ⟨hp12, hp11, fun h => ⟨hlen h, epl_upc_payload_digits upc12, ?_⟩, fun h => ?_⟩
  · have hguard : epl_upc_payload upc12 ≠ [] ∧
        11 ≤ (epl_upc_payload upc12).length := by
      constructor
      · intro hnil
        have h0 := hlen h
        rw [hnil] at h0
        exact absurd h0 (by decide)
      · rw [hlen h]
        omega
    rw [key, if_pos hguard]
  · have hguard : ¬ (epl_upc_payload upc12 ≠ [] ∧
        11 ≤ (epl_upc_payload upc12).length) := by
      rintro ⟨-, h11⟩
      have hple : (epl_upc_payload upc12).length ≤ 10 := by
        simp only [epl_upc_payload]
        rw [if_neg (by omega), if_neg (by omega)]
        exact h
      omega
    rw [key, if_neg hguard]

/-- Evaluation of `epl_barcode_payload_spec`: fifteen digits are cut to the
first twelve, and the seven-digit input "6291041" produces no `B`
directive. -/
theorem epl_barcode_payload_spec_witness :
    epl_upc_payload "036000291452999".toList =
      ("036000291452999".toList.filter fun ch => ch.isDigit).take 12 ∧
    (build_epl_lines "2x1".toList [] "6291041".toList [] [] 1 none).filter
      (headIs 'B') = [] :=
  ⟨(epl_barcode_payload_spec "2x1".toList [] "036000291452999".toList [] [] 1 none).1
      (by decide),
   (epl_barcode_payload_spec "2x1".toList [] "6291041".toList [] [] 1 none).2.2.2
      (by decide)⟩

lemma pyIsDigit_ascii (c : Char) (h : c.toNat < 128) : pyIsDigit c = c.isDigit := by
  cases hb : c.isDigit with
  | false => rw [pyIsDigit, if_neg (by simp [hb]), if_neg (by omega), if_neg (by omega)]
  | true => simp [pyIsDigit, hb]

lemma filter_pyIsDigit_ascii (s : PyStr) (h : ∀ c ∈ s, c.toNat < 128) :
    s.filter pyIsDigit = s.filter (fun c => c.isDigit) := by
  apply List.filter_congr
  intro c hc
  exact pyIsDigit_ascii c (h c hc)

lemma pyIntVal_digit (c : Char) (h : c.isDigit = true) :
    pyIntVal c = some (digitVal c) := by
  rw [pyIntVal, if_pos h, digitVal]

lemma mapIntVals_digits (l : PyStr) (h : ∀ c ∈ l, c.isDigit = true) :
    mapIntVals l = some (l.map digitVal) := by
  induction l with
  | nil => rfl
  | cons c rest ih =>
      rw [mapIntVals, pyIntVal_digit c (h c (List.mem_cons_self c rest)),
        ih fun d hd => h d (List.mem_cons_of_mem c hd)]
      rfl

lemma compute_upc_check_digitE_digits (l : PyStr) (h : ∀ c ∈ l, c.isDigit = true) :
    compute_upc_check_digitE l = some (compute_upc_check_digit l) := by
  rw [compute_upc_check_digitE, mapIntVals_digits l h]
  rfl

/-- C10 counterexample: the payload of an emitted barcode directive is
**not** always 12 digit characters, and the generator is not total.  With
`upc12` = eleven Arabic-Indic digits, Python's `isdigit` keeps all 11, the
check digit is appended and the `B` directive is emitted (payload length
12 ≥ 11), but the final `encode("ascii", errors="ignore")` strips the
payload inside the emitted directive down to the single character "5".
With "1234567890²" (also 11 Python-digits) `compute_upc_check_digit`
raises `ValueError` inside the builder instead of emitting anything. -/
theorem epl_barcode_claim_false :
    ("1234567890²".toList.filter pyIsDigit).length = 11 ∧
    epl_upc_payloadE "1234567890²".toList = Except.error () ∧
    ("٠١٢٣٤٥٦٧٨٩٠".toList.filter pyIsDigit).length = 11 ∧
    epl_upc_payloadE "٠١٢٣٤٥٦٧٨٩٠".toList =
      Except.ok ("٠١٢٣٤٥٦٧٨٩٠".toList ++ ['5']) ∧
    ("٠١٢٣٤٥٦٧٨٩٠".toList ++ ['5']).length = 12 ∧
    encodeAsciiIgnore ("٠١٢٣٤٥٦٧٨٩٠".toList ++ ['5']) = [53] := by
  refine ⟨by decide, rfl, by decide, rfl, by decide, by decide⟩

/-- C10 amended: for `upc12` arguments of ASCII characters the payload
normalization never raises (`epl_upc_payloadE` returns `ok`, agreeing with
the ASCII model) and the claim holds: whenever `build_epl_label` emits a
barcode directive its payload is exactly 12 digit characters — 12 or more
digits yield the first 12 (no check-digit validation), exactly 11 yield
them plus the computed check digit, and with 10 or fewer digits no `B`
directive is emitted.  (With non-ASCII Unicode digits the source can
instead raise, or emit a directive whose ASCII-encoded payload is shorter
than 12.) -/
theorem epl_barcode_payload_amended (size_key item_number upc12 title casepack : PyStr)
    (copies : Int) (settings : Option LabelSettings)
    (hascii : ∀ c ∈ upc12, c.toNat < 128) :
    epl_upc_payloadE upc12 = Except.ok (epl_upc_payload upc12) ∧
    (12 ≤ (upc12.filter fun ch => ch.isDigit).length →
      epl_upc_payload upc12 = (upc12.filter fun ch => ch.isDigit).take 12) ∧
    ((upc12.filter fun ch => ch.isDigit).length = 11 →
      epl_upc_payload upc12 = (upc12.filter fun ch => ch.isDigit) ++
        compute_upc_check_digit (upc12.filter fun ch => ch.isDigit)) ∧
    (11 ≤ (upc12.filter fun ch => ch.isDigit).length →
      (epl_upc_payload upc12).length = 12 ∧
      (∀ c ∈ epl_upc_payload upc12, c.isDigit = true) ∧
      (build_epl_lines size_key item_number upc12 title casepack copies settings).filter
          (headIs 'B') =
        [eplBarcodeCmd (eplParams size_key settings)
          (eplAdjustY (eplParams size_key settings)
            (wrap_text
              (Epl.truncate_text title (eplParams size_key settings).title_max_chars)
              (eplParams size_key settings).title_max_chars
              (eplParams size_key settings).max_title_lines)
            (eplParams size_key settings).barcode_y)
          (epl_upc_payload upc12)]) ∧
    ((upc12.filter fun ch => ch.isDigit).length ≤ 10 →
      (build_epl_lines size_key item_number upc12 title casepack copies settings).filter
          (headIs 'B') = []) := by
  have hf : upc12.filter pyIsDigit = upc12.filter (fun ch => ch.isDigit) :=
    filter_pyIsDigit_ascii upc12 hascii
  have hdig : ∀ c ∈ upc12.filter (fun ch => ch.isDigit), c.isDigit = true :=
    fun c hc => List.of_mem_filter hc
  have hagree : epl_upc_payloadE upc12 = Except.ok (epl_upc_payload upc12) := by
    simp only [epl_upc_payloadE, epl_upc_payload]
    rw [hf]
    by_cases h12 : 12 ≤ (upc12.filter fun ch => ch.isDigit).length
    · rw [if_pos h12, if_pos h12]
    · rw [if_neg h12, if_neg h12]
      by_cases h11 : (upc12.filter fun ch => ch.isDigit).length = 11
      · rw [if_pos h11, if_pos h11, compute_upc_check_digitE_digits _ hdig]
      · rw [if_neg h11, if_neg h11]
  have hold := epl_barcode_payload_spec size_key item_number upc12 title casepack
    copies settings
  exact ⟨hagree, hold.1, hold.2.1, hold.2.2.1, hold.2.2.2⟩

/-- Witness for the amended C10 at the ASCII inputs "036000291452999"
(fifteen digits cut to the first twelve) and "6291041" (no `B`
directive). -/
theorem epl_barcode_payload_amended_witness :
    epl_upc_payloadE "036000291452999".toList =
      Except.ok (epl_upc_payload "036000291452999".toList) ∧
    epl_upc_payload "036000291452999".toList =
      ("036000291452999".toList.filter fun ch => ch.isDigit).take 12 ∧
    (build_epl_lines "2x1".toList [] "6291041".toList [] [] 1 none).filter
      (headIs 'B') = [] :=
  ⟨(epl_barcode_payload_amended "2x1".toList [] "036000291452999".toList [] [] 1 none
      (by decide)).1,
   (epl_barcode_payload_amended "2x1".toList [] "036000291452999".toList [] [] 1 none
      (by decide)).2.1 (by decide),
   (epl_barcode_payload_amended "2x1".toList [] "6291041".toList [] [] 1 none
      (by decide)).2.2.2.2 (by decide)⟩

end PrintLabel

